import Mathlib

/-!
Verification of the OmniESP core (device capability variants, device
factory, registry dispatch, rule engine) against its specification.

The C++ sources are shallowly embedded: each driver class becomes a
constructor of an inductive `Device`, the virtual methods `read`,
`write`, `writeText`, `begin` and `getType` become total Lean
functions, and the request handlers and the rule loop become pure
functions on `List Device`.  `float` values carried through ArduinoJson
are modelled as `FVal`: either NaN or an exact rational (the drivers
perform no float arithmetic that the claims depend on; comparisons on
non-NaN floats agree with the rational order, and comparisons involving
NaN are false exactly as in IEEE 754).
-/

/-- A C++ `float` as it is used by the drivers: NaN or a numeric value,
modelled as an exact rational. -/
inductive FVal
| nan
| num (q : ℚ)
deriving DecidableEq, Repr

/-- IEEE `>`: false whenever either side is NaN. -/
def FVal.fgt : FVal → FVal → Bool
| .num a, .num b => a > b
| _, _ => false

/-- IEEE `<`: false whenever either side is NaN. -/
def FVal.flt : FVal → FVal → Bool
| .num a, .num b => a < b
| _, _ => false

/-- IEEE `>=`: false whenever either side is NaN. -/
def FVal.fge : FVal → FVal → Bool
| .num a, .num b => a ≥ b
| _, _ => false

/-- IEEE `==`: false whenever either side is NaN. -/
def FVal.feq : FVal → FVal → Bool
| .num a, .num b => a = b
| _, _ => false

/-- The C cast `(int)val`, truncation toward zero (`Int.div` is
T-division).  The cast of NaN is undefined behaviour in C; it is
modelled as 0 here and no claim exercises it. -/
def FVal.toInt : FVal → Int
| .nan => 0
| .num q => Int.tdiv q.num q.den

/-- Arduino `String(float)`: `dtostrf` with two decimals, rounding half
away from zero.  Used by `Driver_LCD::write` and by the rule engine's
display formatting.  `m` is `|q| * 100` rounded to the nearest natural
(half up), computed on the reduced numerator and denominator. -/
def FVal.toText : FVal → String
| .nan => "nan"
| .num q =>
    let m : Nat := (200 * q.num.natAbs + q.den) / (2 * q.den)
    (if q.num < 0 then "-" else "") ++ toString (m / 100) ++ "." ++
      (if m % 100 < 10 then "0" else "") ++ toString (m % 100)

/-- A JSON value written by a driver `read`: a number or a string. -/
inductive JVal
| jnum (v : FVal)
| jstr (s : String)
deriving DecidableEq, Repr

/-- A `JsonObject` as the drivers build it: an association list in
insertion order (the drivers always start from a cleared document and
never write a key twice, so plain append is faithful). -/
abbrev JObj := List (String × JVal)

/-- `JsonObject::containsKey`. -/
def JObj.hasKey (o : JObj) (k : String) : Bool :=
  o.any (fun p => p.1 == k)

/-- `obj[key]` converted to `float`.  ArduinoJson returns the first
member with the key; a missing key converts to 0.  A string value is
parsed by ArduinoJson (`strtod`-like); every string the drivers emit
("ON", "OFF", "Read Fail", ...) parses to 0, which is what is modelled
here, and no claim reads a string-valued key numerically. -/
def JObj.getF (o : JObj) (k : String) : FVal :=
  match o.find? (fun p => p.1 == k) with
  | some (_, .jnum v) => v
  | some (_, .jstr _) => .num 0
  | none => .num 0

/-- Arduino `String::length()` (byte count; text is assumed ASCII so it
coincides with the character count). -/
def strLen (s : String) : Nat := s.data.length

/-- Arduino `String::substring(0, n)`: the first `n` characters. -/
def strTake (s : String) (n : Nat) : String := ⟨s.data.take n⟩

/-- `enum DeviceType` from OmniDrivers.h (V2). -/
inductive DeviceType
| SENSOR_BIN | SENSOR_VAL | ACTUATOR_BIN | ACTUATOR_VAL | DISPLAY_DEV
deriving DecidableEq, Repr

/-- The closed set of driver variants (OmniDrivers.h, V2 section).
Sensor constructors carry, besides the C++ object state, the values the
hardware would currently return (e.g. `ambT`/`ambH` are what
`dht->readTemperature()` / `readHumidity()` yield, `phy` is the level
`digitalRead` sees): the environment at the moment of a `read`. -/
inductive Device
| digital (id nm drv : String) (pin : Int) (isOutput inverted state phy : Bool)
| analog (id nm drv : String) (pin : Int) (raw : Int)
| dht (id nm : String) (pin : Int) (isDHT11 : Bool) (ambT ambH : FVal)
| dallas (id nm : String) (pin : Int) (temp : FVal)
| servo (id nm : String) (pin : Int) (pos : Int)
| neo (id nm : String) (pin : Int) (count : Int) (hsv : Int)
| ina219 (id nm : String) (addr : Int) (volts mA mW : FVal)
| bme280 (id nm : String) (addr : Int) (t h p : FVal)
| bh1750 (id nm : String) (addr : Int) (lux : FVal)
| lcd (id nm : String) (addr : Int) (row0 row1 lastMsg : String)
deriving DecidableEq, Repr

namespace Device

/-- `Device::getId`. -/
def getId : Device → String
| .digital id _ _ _ _ _ _ _ => id
| .analog id _ _ _ _ => id
| .dht id _ _ _ _ _ => id
| .dallas id _ _ _ => id
| .servo id _ _ _ => id
| .neo id _ _ _ _ => id
| .ina219 id _ _ _ _ _ => id
| .bme280 id _ _ _ _ _ => id
| .bh1750 id _ _ _ => id
| .lcd id _ _ _ _ _ => id

/-- `Device::getName`. -/
def getName : Device → String
| .digital _ nm _ _ _ _ _ _ => nm
| .analog _ nm _ _ _ => nm
| .dht _ nm _ _ _ _ => nm
| .dallas _ nm _ _ => nm
| .servo _ nm _ _ => nm
| .neo _ nm _ _ _ => nm
| .ina219 _ nm _ _ _ _ => nm
| .bme280 _ nm _ _ _ _ => nm
| .bh1750 _ nm _ _ => nm
| .lcd _ nm _ _ _ _ => nm

/-- `getType()` of each driver class (V2). -/
def getType : Device → DeviceType
| .digital _ _ _ _ isOut _ _ _ => if isOut then .ACTUATOR_BIN else .SENSOR_BIN
| .analog _ _ _ _ _ => .SENSOR_VAL
| .dht _ _ _ _ _ _ => .SENSOR_VAL
| .dallas _ _ _ _ => .SENSOR_VAL
| .servo _ _ _ _ => .ACTUATOR_VAL
| .neo _ _ _ _ _ => .ACTUATOR_VAL
| .ina219 _ _ _ _ _ _ => .SENSOR_VAL
| .bme280 _ _ _ _ _ _ => .SENSOR_VAL
| .bh1750 _ _ _ _ => .SENSOR_VAL
| .lcd _ _ _ _ _ _ => .DISPLAY_DEV

end Device

/-- `Driver_DHT::read` of the V1 driver header: NaN on either channel
yields the single `error` key, otherwise both value keys. -/
def dhtReadV1 (t h : FVal) : JObj :=
  if t = .nan || h = .nan then [("error", .jstr "Read Fail")]
  else [("temp", .jnum t), ("hum", .jnum h)]

/-- `Driver_DHT::read` of the V2 driver header: only the temperature
channel is tested for NaN. -/
def dhtReadV2 (t h : FVal) : JObj :=
  if t = .nan then [("error", .jstr "Sensor Error")]
  else [("temp", .jnum t), ("hum", .jnum h)]

namespace Device

/-- `Driver_Digital::apply`: `digitalWrite(_pin, _inverted ? !_state :
_state)`.  The driven line level as a function of the stored logical
state. -/
def applyLevel (inverted state : Bool) : Bool :=
  if inverted then !state else state

/-- `write(cmd, val)` of each driver class (V2 header).  Pure sensors
inherit the base-class no-op.  `Driver_LCD::write` prints the name and
the numeric value and remembers `String(val)`. -/
def write (cmd : String) (val : FVal) : Device → Device
| .digital id nm drv pin isOut inv st phy =>
    if isOut then
      let st' := if cmd == "toggle" then !st else val.fge (.num 1)
      .digital id nm drv pin isOut inv st' (applyLevel inv st')
    else .digital id nm drv pin isOut inv st phy
| .servo id nm pin _ =>
    let a := val.toInt
    .servo id nm pin (if a < 0 then 0 else if a > 180 then 180 else a)
| .neo id nm pin count _ => .neo id nm pin count val.toInt
| .lcd id nm addr _ _ _ => .lcd id nm addr nm val.toText val.toText
| d => d

/-- `writeText(text)`: base-class no-op, overridden only by
`Driver_LCD`, which prints the name on row 0 and the text truncated to
the 16-character width on row 1, remembering the untruncated text. -/
def writeText (text : String) : Device → Device
| .lcd id nm addr _ _ _ =>
    .lcd id nm addr nm (if strLen text > 16 then strTake text 16 else text) text
| d => d

/-- `read(doc)` of each driver class (V2 header).  Reading an
input-direction digital device re-derives the stored logical state from
the physical level, so `read` returns the possibly-updated device
together with the populated document.  Float arithmetic (volts,
pressure scaling) is modelled exactly over ℚ. -/
def read : Device → Device × JObj
| .digital id nm drv pin isOut inv st phy =>
    let st' := if isOut then st else (phy == !inv)
    (.digital id nm drv pin isOut inv st' phy,
     [("val", .jnum (.num (if st' then 1 else 0))),
      ("human", .jstr (if st' then "ON" else "OFF"))])
| .analog id nm drv pin raw =>
    (.analog id nm drv pin raw,
     [("val", .jnum (.num raw)),
      ("volts", .jnum (.num (mkRat (raw * 33) 40950)))])
| .dht id nm pin sub t h => (.dht id nm pin sub t h, dhtReadV2 t h)
| .dallas id nm pin t =>
    (.dallas id nm pin t,
     if t.feq (.num (-127)) then [("error", .jstr "Disc.")]
     else [("temp", .jnum t)])
| .servo id nm pin pos => (.servo id nm pin pos, [("angle", .jnum (.num pos))])
| .neo id nm pin count hsv =>
    (.neo id nm pin count hsv, [("status", .jstr "OK")])
| .ina219 id nm addr v mA mW =>
    (.ina219 id nm addr v mA mW,
     [("volts", .jnum v), ("mA", .jnum mA), ("mW", .jnum mW)])
| .bme280 id nm addr t h p =>
    (.bme280 id nm addr t h p,
     [("temp", .jnum t), ("hum", .jnum h),
      ("pres", .jnum (match p with
                      | .nan => .nan
                      | .num q => .num (mkRat q.num (q.den * 100))))])
| .bh1750 id nm addr lux => (.bh1750 id nm addr lux, [("lux", .jnum lux)])
| .lcd id nm addr r0 r1 lm =>
    (.lcd id nm addr r0 r1 lm, [("display", .jstr lm)])

/-- `begin()` as far as it touches modelled state: an output-direction
digital driver drives the line from its stored state, the LCD prints
its banner; hardware handshakes of the other drivers change nothing
modelled. -/
def start : Device → Device
| .digital id nm drv pin isOut inv st phy =>
    if isOut then .digital id nm drv pin isOut inv st (applyLevel inv st)
    else .digital id nm drv pin isOut inv st phy
| .lcd id nm addr _ _ lm => .lcd id nm addr "OmniESP V2" "Ready..." lm
| d => d

end Device

/-- `DeviceFactory::create` (V2 header): the closed tag-to-variant
mapping, with the per-tag direction/inversion defaults and the fixed
NeoPixel channel count. -/
def DeviceFactory.create (type id nm : String) (pin : Int) : Option Device :=
  if type == "RELAY" || type == "VALVE" || type == "LOCK" then
    some (.digital id nm type pin true false false false)
  else if type == "BUTTON" || type == "DOOR" || type == "PIR" then
    some (.digital id nm type pin false (type != "PIR") false false)
  else if type == "LDR" || type == "SOIL" || type == "MQ2" then
    some (.analog id nm type pin 0)
  else if type == "DHT22" then some (.dht id nm pin false .nan .nan)
  else if type == "DHT11" then some (.dht id nm pin true .nan .nan)
  else if type == "DS18B20" then some (.dallas id nm pin .nan)
  else if type == "SERVO" then some (.servo id nm pin 0)
  else if type == "NEOPIXEL" then some (.neo id nm pin 16 0)
  else if type == "INA219" then some (.ina219 id nm pin .nan .nan .nan)
  else if type == "BME280" then some (.bme280 id nm pin .nan .nan .nan)
  else if type == "BH1750" then some (.bh1750 id nm pin .nan)
  else if type == "LCD_I2C" then some (.lcd id nm pin "" "" "")
  else none

/-- The tags `DeviceFactory::create` recognises. -/
def knownTags : List String :=
  ["RELAY", "VALVE", "LOCK", "BUTTON", "DOOR", "PIR", "LDR", "SOIL",
   "MQ2", "DHT22", "DHT11", "DS18B20", "SERVO", "NEOPIXEL", "INA219",
   "BME280", "BH1750", "LCD_I2C"]

/-- `isI2CDriver` from src/main.cpp. -/
def isI2CDriver (type : String) : Bool :=
  type == "INA219" || type == "BME280" || type == "BH1750" ||
    type == "LCD_I2C" || type == "OLED"

/-- `isPinValid` from src/main.cpp: I2C drivers carry a bus address in
1..127; GPIO drivers a pin in 0..39 excluding 1, 3 and 6..11. -/
def isPinValid (pin : Int) (type : String) : Bool :=
  if isI2CDriver type then decide (1 ≤ pin ∧ pin ≤ 127)
  else if pin < 0 || pin > 39 then false
  else if pin == 1 || pin == 3 || (6 ≤ pin && pin ≤ 11) then false
  else true

/-- A persisted device record `{id, name, driver, pin}`. -/
structure Descriptor where
  driver : String
  id : String
  nm : String
  pin : Int
deriving DecidableEq, Repr

/-- The device-loading loop shared by `loadConfig` and the
`/api/config` handler of src/main.cpp: per record, validate the pin,
construct via the factory, `begin()` the device and append it;
a failed validation or an unknown tag skips only that record. -/
def loadDevices : List Descriptor → List Device
| [] => []
| o :: rest =>
    if isPinValid o.pin o.driver then
      match DeviceFactory.create o.driver o.id o.nm o.pin with
      | some d => d.start :: loadDevices rest
      | none => loadDevices rest
    else loadDevices rest

/-- The `struct Rule {srcId, param, op, threshold, tgtId, actionVal}`
record. -/
structure Rule where
  srcId : String
  param : String
  op : String
  threshold : ℚ
  tgtId : String
  actionVal : ℚ
deriving DecidableEq, Repr

/-- Placeholder device used only to give the out-of-range default of
`List.getD`; every lookup that matters is guarded by `resolveIdx`. -/
def dummyDevice : Device := .analog "" "" "" 0 0

/-- The id-scan loop `for(auto d : devices) if(d->getId() == id) p = d;`
as it appears in `checkRules` and in the src/main.cpp `/api/control`
handler: every match overwrites the accumulator, tracked here as the
index of the match. -/
def resolveIdxAux (id : String) : Nat → Option Nat → List Device → Option Nat
| _, acc, [] => acc
| i, acc, d :: rest =>
    resolveIdxAux id (i + 1) (if d.getId == id then some i else acc) rest

/-- The index the pointer left by the id-scan loop refers to. -/
def resolveIdx (devs : List Device) (id : String) : Option Nat :=
  resolveIdxAux id 0 none devs

/-- The src/main.cpp `/api/control` handler with a `cmd` parameter (no
`text`): scan for the id, then `write` through the pointer the scan
left; missing id is a no-op. -/
def mainControlWrite (devs : List Device) (id cmd : String) (v : FVal) :
    List Device :=
  match resolveIdx devs id with
  | some i => devs.set i ((devs.getD i dummyDevice).write cmd v)
  | none => devs

/-- The src/main.cpp `/api/control` handler with a `text` parameter. -/
def mainControlText (devs : List Device) (id text : String) : List Device :=
  match resolveIdx devs id with
  | some i => devs.set i ((devs.getD i dummyDevice).writeText text)
  | none => devs

/-- The part_002 `/api/control` handler with a `cmd` parameter: the
body acts inside the scan loop, so every device whose id matches is
written. -/
def p2ControlWrite (devs : List Device) (id cmd : String) (v : FVal) :
    List Device :=
  devs.map (fun d => if d.getId == id then d.write cmd v else d)

/-- The body of the per-rule iteration of `checkRules` (identical in
part_002 and src/main.cpp): resolve source and target by the id scan,
read the source (updating it in place), and on a strict threshold
crossing drive the target — `writeText "<name>: <String(val)>"` for a
display, `write("set", actionVal)` otherwise. -/
def applyRule (devs : List Device) (r : Rule) : List Device :=
  match resolveIdx devs r.srcId, resolveIdx devs r.tgtId with
  | some si, some ti =>
      let src := devs.getD si dummyDevice
      let rd := src.read
      let devs1 := devs.set si rd.1
      if rd.2.hasKey r.param then
        let val := rd.2.getF r.param
        let trig := (r.op == ">" && val.fgt (.num r.threshold)) ||
                    (r.op == "<" && val.flt (.num r.threshold))
        if trig then
          let tgt := devs1.getD ti dummyDevice
          if tgt.getType == .DISPLAY_DEV then
            devs1.set ti (tgt.writeText (rd.1.getName ++ ": " ++ val.toText))
          else
            devs1.set ti (tgt.write "set" (.num r.actionVal))
        else devs1
      else devs1
  | _, _ => devs

/-- The device list after the in-place `src->read(obj)` of one rule
iteration: the source slot holds the read-updated source object. -/
def afterSourceRead (devs : List Device) (si : Nat) : List Device :=
  devs.set si (devs.getD si dummyDevice).read.1

/-- One full pass over the rule vector, in declaration order. -/
def rulePass (rules : List Rule) (devs : List Device) : List Device :=
  rules.foldl applyRule devs

/-- `checkRules` of src/main.cpp: no cadence guard, every invocation
evaluates the whole rule vector. -/
def checkRulesMain (rules : List Rule) (devs : List Device) : List Device :=
  rulePass rules devs

/-- The rule-engine state of the part_002 `checkRules`: the `static
unsigned long lastCheck` timestamp and the device vector. -/
structure EngineState where
  lastCheck : Nat
  devices : List Device
deriving DecidableEq, Repr

/-- `millis() - lastCheck` in 32-bit unsigned arithmetic (`millis`
readings are the values of the 32-bit counter). -/
def sub32 (now last : Nat) : Nat := (now + 2 ^ 32 - last % 2 ^ 32) % 2 ^ 32

/-- `checkRules` of part_002: return untouched unless at least 500 ms
have elapsed since the last evaluation, else stamp `lastCheck` and run
the pass. -/
def checkRulesP2 (rules : List Rule) (now : Nat) (s : EngineState) :
    EngineState :=
  if sub32 now s.lastCheck < 500 then s
  else { lastCheck := now, devices := rulePass rules s.devices }

/-- One `loop()` pass of src/main.cpp as far as the rule engine is
concerned: `checkRules()` is called unconditionally, whatever the
current time is. -/
def loopTickMain (rules : List Rule) (_now : Nat) (devs : List Device) :
    List Device :=
  checkRulesMain rules devs

/-- C6: on an output-direction digital actuator, `write("toggle", v)`
flips the stored logical state exactly once regardless of `v` (two
toggles restore it), any other command stores `v >= 1`, and the driven
line level is the stored state with the inversion flag applied (with
inversion enabled and logical state true the driven level is the
inverted one); on an input-direction digital device `write` is a
no-op. -/
theorem digital_write_semantics (id nm drv : String) (pin : Int)
    (inv st phy : Bool) (cmd : String) (v w : FVal) :
    (Device.write "toggle" v (.digital id nm drv pin true inv st phy)
       = .digital id nm drv pin true inv (!st) (Device.applyLevel inv (!st)))
    ∧ (Device.write "toggle" w (Device.write "toggle" v
         (.digital id nm drv pin true inv st phy))
       = .digital id nm drv pin true inv st (Device.applyLevel inv st))
    ∧ (cmd ≠ "toggle" →
        Device.write cmd v (.digital id nm drv pin true inv st phy)
          = .digital id nm drv pin true inv (v.fge (.num 1))
              (Device.applyLevel inv (v.fge (.num 1))))
    ∧ Device.applyLevel true true = false
    ∧ Device.applyLevel false st = st
    ∧ Device.applyLevel true st = !st
    ∧ Device.write cmd v (.digital id nm drv pin false inv st phy)
        = .digital id nm drv pin false inv st phy := by
  refine ⟨by simp [Device.write], by simp [Device.write], ?_, rfl, rfl, rfl,
    by simp [Device.write]⟩
  intro h
  simp [Device.write, h]

/-- Witness for `digital_write_semantics` at `cmd := "set"`. -/
theorem digital_write_semantics_witness :
    Device.write "set" (.num 1) (.digital "r1" "R" "RELAY" 5 true true false false)
      = .digital "r1" "R" "RELAY" 5 true true true false :=
  ((digital_write_semantics "r1" "R" "RELAY" 5 true false false "set"
      (.num 1) (.num 1)).2.2.1 (by decide)).trans (by decide)

/-- C7 counterexample: at `v = 90.5` (already inside `[0,180]`, so the
value clamped into `[0,180]` is `90.5` itself) the servo driver stores
and reports `90`, not the clamped `v`, because the C++ code casts the
float to `int` before `constrain`. -/
theorem servo_write_clamp_counterexample :
    (Device.read (Device.write "set" (.num (mkRat 181 2))
        (.servo "s1" "S" 13 0))).2.getF "angle" ≠ .num (mkRat 181 2) := by
  decide

/-- C7 amended: a servo `write(cmd, v)` stores `v` truncated toward
zero and then clamped into `[0,180]`, and a subsequent `read` reports
that angle; in particular `write(_, -10)` yields `0` and
`write(_, 999)` yields `180`. -/
theorem servo_write_truncates_then_clamps (id nm : String) (pin pos : Int)
    (cmd : String) (v : FVal) :
    Device.write cmd v (.servo id nm pin pos)
      = .servo id nm pin (max 0 (min 180 v.toInt))
    ∧ Device.read (Device.write cmd v (.servo id nm pin pos))
        = (.servo id nm pin (max 0 (min 180 v.toInt)),
           [("angle", .jnum (.num ((max 0 (min 180 v.toInt) : Int) : ℚ)))])
    ∧ Device.write cmd (.num (-10)) (.servo id nm pin pos)
        = .servo id nm pin 0
    ∧ Device.write cmd (.num 999) (.servo id nm pin pos)
        = .servo id nm pin 180 := by
  have key : ∀ w : FVal, Device.write cmd w (.servo id nm pin pos)
      = .servo id nm pin (max 0 (min 180 w.toInt)) := by
    intro w
    simp only [Device.write]
    congr 1
    omega
  refine ⟨key v, ?_, ?_, ?_⟩
  · rw [key v]; rfl
  · rw [key (.num (-10))]; norm_num [FVal.toInt]
  · rw [key (.num 999)]; norm_num [FVal.toInt]

/-- C8: `writeText` is a no-op on every device that does not classify
as `DISPLAY_DEV`; on the LCD, the text row shows the text truncated to
the 16-character width (at most 16 characters survive) and the overflow
is dropped — the other row holds the device name, never wrapped
text. -/
theorem writeText_semantics (t id nm : String) (addr : Int)
    (r0 r1 lm : String) :
    (∀ d : Device, d.getType ≠ .DISPLAY_DEV → d.writeText t = d)
    ∧ Device.writeText t (.lcd id nm addr r0 r1 lm)
        = .lcd id nm addr nm (strTake t 16) t
    ∧ strLen (strTake t 16) ≤ 16 := by
  refine ⟨?_, ?_, ?_⟩
  · intro d h
    cases d <;> simp_all [Device.writeText, Device.getType]
  · simp only [Device.writeText]
    congr 1
    split
    · rfl
    · next hlen =>
        simp only [strLen, Nat.not_lt] at hlen ⊢
        simp [strTake, List.take_of_length_le hlen]
  · simp [strLen, strTake, List.length_take]

/-- Witness for `writeText_semantics`: a 20-character text on the LCD
is cut to its first 16 characters, and `writeText` leaves a servo
unchanged. -/
theorem writeText_semantics_witness :
    Device.writeText "abcdefghijklmnopqrst" (.lcd "l1" "LCD" 39 "" "" "")
      = .lcd "l1" "LCD" 39 "LCD" "abcdefghijklmnop" "abcdefghijklmnopqrst"
    ∧ Device.writeText "abcdefghijklmnopqrst" (.servo "s1" "S" 13 0)
      = .servo "s1" "S" 13 0 :=
  ⟨((writeText_semantics "abcdefghijklmnopqrst" "l1" "LCD" 39 "" "" "").2.1).trans
      (by decide),
   (writeText_semantics "abcdefghijklmnopqrst" "l1" "LCD" 39 "" "" "").1
      (.servo "s1" "S" 13 0) (by decide)⟩

/-- C10: after `writeText(t)` with `t` longer than the 16-character
width, `read` reports the full original `t` under the `display` key,
which differs from the truncated text actually shown on the text
row. -/
theorem lcd_readback_differs_from_shown (t id nm : String) (addr : Int)
    (r0 r1 lm : String) (h : strLen t > 16) :
    (Device.read (Device.writeText t (.lcd id nm addr r0 r1 lm))).2
      = [("display", .jstr t)]
    ∧ Device.writeText t (.lcd id nm addr r0 r1 lm)
        = .lcd id nm addr nm (strTake t 16) t
    ∧ strTake t 16 ≠ t := by
  refine ⟨?_, ?_, ?_⟩
  · simp [Device.writeText, Device.read]
  · simp only [Device.writeText]
    congr 1
    split
    · rfl
    · next hc => exact absurd h hc
  · intro heq
    have hlen : strLen (strTake t 16) = strLen t := congrArg strLen heq
    simp only [strLen, strTake, List.length_take] at hlen h
    omega

/-- Witness for `lcd_readback_differs_from_shown` on a 20-character
text. -/
theorem lcd_readback_differs_from_shown_witness :
    (Device.read (Device.writeText "abcdefghijklmnopqrst"
        (.lcd "l1" "LCD" 39 "" "" ""))).2
      = [("display", .jstr "abcdefghijklmnopqrst")]
    ∧ strTake "abcdefghijklmnopqrst" 16 ≠ "abcdefghijklmnopqrst" :=
  ⟨(lcd_readback_differs_from_shown "abcdefghijklmnopqrst" "l1" "LCD" 39
      "" "" "" (by decide)).1,
   (lcd_readback_differs_from_shown "abcdefghijklmnopqrst" "l1" "LCD" 39
      "" "" "" (by decide)).2.2⟩

lemma create_unknown (type id nm : String) (pin : Int)
    (h : type ∉ knownTags) : DeviceFactory.create type id nm pin = none := by
  simp only [knownTags, List.mem_cons, List.not_mem_nil, or_false] at h
  push_neg at h
  obtain ⟨h1, h2, h3, h4, h5, h6, h7, h8, h9, h10, h11, h12, h13, h14, h15,
    h16, h17, h18⟩ := h
  simp [DeviceFactory.create, h1, h2, h3, h4, h5, h6, h7, h8, h9, h10, h11,
    h12, h13, h14, h15, h16, h17, h18]

lemma create_known (type id nm : String) (pin : Int) (h : type ∈ knownTags) :
    (DeviceFactory.create type id nm pin).isSome = true := by
  simp only [knownTags, List.mem_cons, List.not_mem_nil, or_false] at h
  rcases h with rfl | rfl | rfl | rfl | rfl | rfl | rfl | rfl | rfl | rfl |
    rfl | rfl | rfl | rfl | rfl | rfl | rfl | rfl <;> rfl

lemma loadDevices_append (ds1 ds2 : List Descriptor) :
    loadDevices (ds1 ++ ds2) = loadDevices ds1 ++ loadDevices ds2 := by
  induction ds1 with
  | nil => rfl
  | cons o rest ih =>
      simp only [List.cons_append, loadDevices]
      by_cases hv : isPinValid o.pin o.driver = true
      · simp only [hv, if_true]
        cases hc : DeviceFactory.create o.driver o.id o.nm o.pin <;>
          simp [ih]
      · simp [hv, ih]

lemma loadDevices_length_count (ds : List Descriptor) :
    (loadDevices ds).length
      = ds.countP (fun o => isPinValid o.pin o.driver
          && (DeviceFactory.create o.driver o.id o.nm o.pin).isSome) := by
  induction ds with
  | nil => rfl
  | cons o rest ih =>
      simp only [loadDevices, List.countP_cons]
      by_cases hv : isPinValid o.pin o.driver = true
      · cases hc : DeviceFactory.create o.driver o.id o.nm o.pin <;>
          simp [hv, hc, ih]
      · simp [hv, ih]

/-- C5: the factory classifies by tag over a closed set — `RELAY`
constructs an `ACTUATOR_BIN` device, `PIR` a `SENSOR_BIN` device, any
tag outside the closed mapping constructs nothing; and a batch load
whose descriptors are all valid except exactly one unknown-tag
descriptor registers exactly the other N devices, unaffected. -/
theorem factory_closed_tag_mapping (id nm tag : String) (pin : Int)
    (ds1 ds2 : List Descriptor) (bad : Descriptor) :
    (∃ d, DeviceFactory.create "RELAY" id nm pin = some d
        ∧ d.getType = .ACTUATOR_BIN)
    ∧ (∃ d, DeviceFactory.create "PIR" id nm pin = some d
        ∧ d.getType = .SENSOR_BIN)
    ∧ (tag ∉ knownTags → DeviceFactory.create tag id nm pin = none)
    ∧ (bad.driver ∉ knownTags →
        (∀ o ∈ ds1 ++ ds2, o.driver ∈ knownTags
            ∧ isPinValid o.pin o.driver = true) →
        loadDevices (ds1 ++ bad :: ds2) = loadDevices ds1 ++ loadDevices ds2
          ∧ (loadDevices (ds1 ++ bad :: ds2)).length
              = ds1.length + ds2.length) := by
  refine ⟨⟨_, rfl, rfl⟩, ⟨_, rfl, rfl⟩, create_unknown tag id nm pin, ?_⟩
  intro hbad hall
  have hskip : loadDevices (bad :: ds2) = loadDevices ds2 := by
    simp only [loadDevices, create_unknown bad.driver bad.id bad.nm bad.pin hbad]
    split <;> rfl
  have hsplit : loadDevices (ds1 ++ bad :: ds2)
      = loadDevices ds1 ++ loadDevices ds2 := by
    rw [loadDevices_append, hskip]
  refine ⟨hsplit, ?_⟩
  have hfull : ∀ ds : List Descriptor,
      (∀ o ∈ ds, o.driver ∈ knownTags ∧ isPinValid o.pin o.driver = true) →
      (loadDevices ds).length = ds.length := by
    intro ds hds
    rw [loadDevices_length_count]
    apply List.countP_eq_length.mpr
    intro o ho
    have := hds o ho
    simp [this.2, create_known o.driver o.id o.nm o.pin this.1]
  rw [hsplit, List.length_append,
    hfull ds1 (fun o ho => hall o (List.mem_append_left _ ho)),
    hfull ds2 (fun o ho => hall o (List.mem_append_right _ ho))]

/-- Witness for `factory_closed_tag_mapping`: a batch of a valid relay
descriptor, an unknown-tag descriptor and a valid PIR descriptor
registers exactly the two valid devices. -/
theorem factory_closed_tag_mapping_witness :
    DeviceFactory.create "GARBAGE_TAG" "x" "X" 4 = none
    ∧ (loadDevices [⟨"RELAY", "r1", "R", 5⟩, ⟨"GARBAGE_TAG", "x", "X", 4⟩,
         ⟨"PIR", "p1", "P", 27⟩]).length = 2 :=
  ⟨(factory_closed_tag_mapping "x" "X" "GARBAGE_TAG" 4 [] [] ⟨"", "", "", 0⟩).2.2.1
      (by decide),
   ((factory_closed_tag_mapping "x" "X" "GARBAGE_TAG" 4
        [⟨"RELAY", "r1", "R", 5⟩] [⟨"PIR", "p1", "P", 27⟩]
        ⟨"GARBAGE_TAG", "x", "X", 4⟩).2.2.2
      (by decide) (by decide)).2⟩

lemma resolveIdxAux_char (id : String) (devs : List Device) :
    ∀ (i : Nat) (acc : Option Nat),
    resolveIdxAux id i acc devs
      = match resolveIdx devs id with
        | some k => some (k + i)
        | none => acc := by
  induction devs with
  | nil => intro i acc; rfl
  | cons d rest ih =>
      intro i acc
      have hl : resolveIdxAux id i acc (d :: rest)
          = resolveIdxAux id (i + 1)
              (if d.getId == id then some i else acc) rest := rfl
      have hr0 : resolveIdx (d :: rest) id
          = resolveIdxAux id (0 + 1)
              (if d.getId == id then some 0 else none) rest := rfl
      rw [hl, ih, hr0, ih]
      cases hr : resolveIdx rest id with
      | some k => simp only []; congr 1; omega
      | none => cases hm : d.getId == id <;> simp

lemma resolveIdx_cons (d : Device) (rest : List Device) (id : String) :
    resolveIdx (d :: rest) id
      = match resolveIdx rest id with
        | some k => some (k + 1)
        | none => if d.getId == id then some 0 else none := by
  have h0 : resolveIdx (d :: rest) id
      = resolveIdxAux id (0 + 1)
          (if d.getId == id then some 0 else none) rest := rfl
  rw [h0, resolveIdxAux_char]

lemma resolveIdx_none_iff (devs : List Device) (id : String) :
    resolveIdx devs id = none ↔ ∀ d ∈ devs, d.getId ≠ id := by
  induction devs with
  | nil => simp [resolveIdx, resolveIdxAux]
  | cons d rest ih =>
      rw [resolveIdx_cons]
      simp only [List.forall_mem_cons]
      cases hr : resolveIdx rest id with
      | some k =>
          constructor
          · intro h; exact absurd h (Option.some_ne_none _)
          · intro h
            have := ih.mpr h.2
            rw [hr] at this
            cases this
      | none =>
          have hrest : ∀ d' ∈ rest, d'.getId ≠ id := ih.mp hr
          cases hm : d.getId == id with
          | true =>
              simp only [if_true]
              constructor
              · intro h; exact absurd h (Option.some_ne_none _)
              · intro h; exact absurd (by simpa using hm) h.1
          | false =>
              simp only [if_false]
              constructor
              · intro _; exact ⟨by simpa using hm, hrest⟩
              · intro _; rfl

lemma resolveIdx_last (devs : List Device) (id : String) (i : Nat)
    (h : resolveIdx devs id = some i) :
    i < devs.length ∧ (devs.getD i dummyDevice).getId = id
    ∧ ∀ j, i < j → j < devs.length →
        (devs.getD j dummyDevice).getId ≠ id := by
  induction devs generalizing i with
  | nil => cases h
  | cons d rest ih =>
      rw [resolveIdx_cons] at h
      cases hr : resolveIdx rest id with
      | some k =>
          rw [hr] at h
          obtain rfl : k + 1 = i := by injection h
          obtain ⟨hlt, hid, hlast⟩ := ih k hr
          refine ⟨by simpa using Nat.succ_lt_succ hlt, by simpa using hid, ?_⟩
          intro j hij hjlen
          cases j with
          | zero => omega
          | succ j' =>
              simpa using hlast j' (by omega) (by simpa using hjlen)
      | none =>
          rw [hr] at h
          cases hm : d.getId == id with
          | true =>
              simp only [hm, if_true] at h
              obtain rfl : (0 : Nat) = i := by injection h
              refine ⟨by simp, by simpa using hm, ?_⟩
              intro j hij hjlen
              cases j with
              | zero => omega
              | succ j' =>
                  have hall := (resolveIdx_none_iff rest id).mp hr
                  have hj' : j' < rest.length := by simpa using hjlen
                  rw [List.getD_cons_succ, List.getD_eq_getElem rest dummyDevice hj']
                  exact hall _ (List.getElem_mem hj')
          | false =>
              simp only [hm, if_false] at h
              cases h

/-- C1: for a rule whose operator is `>` or `<` and whose source and
target ids resolve, if the source's read output contains the rule's
parameter with a numeric value on the strict side of the threshold the
target receives exactly one action — `writeText "<source name>:
<value>"` when it classifies as a display, `write("set", actionValue)`
otherwise; if the comparison fails, the value is NaN, the parameter is
absent, or the output is only an `error` key, the target is not written
at all (only the source slot carries its in-place read update). -/
theorem rule_trigger_semantics (devs : List Device) (r : Rule)
    (si ti : Nat) (q : ℚ)
    (hs : resolveIdx devs r.srcId = some si)
    (ht : resolveIdx devs r.tgtId = some ti)
    (hop : r.op = ">" ∨ r.op = "<") :
    ((devs.getD si dummyDevice).read.2.hasKey r.param = false →
      applyRule devs r = afterSourceRead devs si)
    ∧ ((devs.getD si dummyDevice).read.2.hasKey r.param = true →
       (devs.getD si dummyDevice).read.2.getF r.param = .num q →
        ((if r.op = ">" then r.threshold < q else q < r.threshold) →
          ((((afterSourceRead devs si).getD ti dummyDevice).getType
              = .DISPLAY_DEV →
            applyRule devs r
              = (afterSourceRead devs si).set ti
                  (((afterSourceRead devs si).getD ti dummyDevice).writeText
                    ((devs.getD si dummyDevice).read.1.getName ++ ": "
                      ++ FVal.toText (.num q))))
          ∧ (((afterSourceRead devs si).getD ti dummyDevice).getType
              ≠ .DISPLAY_DEV →
            applyRule devs r
              = (afterSourceRead devs si).set ti
                  (((afterSourceRead devs si).getD ti dummyDevice).write
                    "set" (.num r.actionVal)))))
        ∧ (¬ (if r.op = ">" then r.threshold < q else q < r.threshold) →
            applyRule devs r = afterSourceRead devs si))
    ∧ ((devs.getD si dummyDevice).read.2.getF r.param = .nan →
        applyRule devs r = afterSourceRead devs si)
    ∧ (∀ e : JVal, (devs.getD si dummyDevice).read.2 = [("error", e)] →
        r.param ≠ "error" →
        applyRule devs r = afterSourceRead devs si) := by
  have hnokey : (devs.getD si dummyDevice).read.2.hasKey r.param = false →
      applyRule devs r = afterSourceRead devs si := by
    intro hk
    simp only [applyRule, hs, ht, hk, Bool.false_eq_true, if_false]
    rfl
  have hyeskey : ∀ hk : (devs.getD si dummyDevice).read.2.hasKey r.param = true,
      ∀ hb : (r.op == ">"
          && ((devs.getD si dummyDevice).read.2.getF r.param).fgt
               (.num r.threshold)
        || r.op == "<"
          && ((devs.getD si dummyDevice).read.2.getF r.param).flt
               (.num r.threshold)) = false,
      applyRule devs r = afterSourceRead devs si := by
    intro hk hb
    simp only [applyRule, hs, ht, hk, if_true, hb, Bool.false_eq_true,
      if_false]
    rfl
  refine ⟨hnokey, ?_, ?_, ?_⟩
  · intro hk hv
    constructor
    · intro htrig
      have htrigb : (r.op == ">" && (FVal.num q).fgt (.num r.threshold)
          || r.op == "<" && (FVal.num q).flt (.num r.threshold)) = true := by
        rcases hop with hop | hop <;> rw [hop] at htrig <;> simp at htrig <;>
          simp [hop, FVal.fgt, FVal.flt, htrig]
      constructor
      · intro hdisp
        simp only [afterSourceRead] at hdisp ⊢
        have hdb : ((((devs.set si (devs.getD si dummyDevice).read.1)).getD ti
            dummyDevice).getType == DeviceType.DISPLAY_DEV) = true := by
          rw [hdisp]; rfl
        simp only [applyRule, hs, ht, hk, hv, htrigb, hdb,
          eq_self_iff_true, if_true]
      · intro hdisp
        simp only [afterSourceRead] at hdisp ⊢
        have hdb : ((((devs.set si (devs.getD si dummyDevice).read.1)).getD ti
            dummyDevice).getType == DeviceType.DISPLAY_DEV) = false := by
          simpa using hdisp
        simp only [applyRule, hs, ht, hk, hv, htrigb, hdb,
          eq_self_iff_true, if_true, Bool.false_eq_true, if_false]
    · intro htrig
      apply hyeskey hk
      rw [hv]
      rcases hop with hop | hop <;> rw [hop] at htrig <;> simp at htrig <;>
        simp [hop, FVal.fgt, FVal.flt, htrig]
  · intro hv
    by_cases hk : (devs.getD si dummyDevice).read.2.hasKey r.param = true
    · apply hyeskey hk
      rw [hv]
      simp [show FVal.fgt .nan (.num r.threshold) = false from rfl,
        show FVal.flt .nan (.num r.threshold) = false from rfl]
    · exact hnokey (by simpa using hk)
  · intro e herr hne
    apply hnokey
    rw [herr]
    simp [JObj.hasKey]
    exact fun hcontra => hne hcontra.symm

/-- Witness for `rule_trigger_semantics`: the spec's own scenario.
Rule `{src: t1, param: temp, op: >, threshold: 25, tgt: fan1, act: 1}`
— a reading `temp = 30` drives the relay (`write("set", 1)` stores
`true` and drives the line), `temp = 20` leaves everything unchanged,
and an error-only reading leaves everything unchanged. -/
theorem rule_trigger_semantics_witness :
    applyRule
      [Device.dht "t1" "T" 4 false (.num 30) (.num 50),
       Device.digital "fan1" "Fan" "RELAY" 16 true false false false]
      ⟨"t1", "temp", ">", 25, "fan1", 1⟩
      = [Device.dht "t1" "T" 4 false (.num 30) (.num 50),
         Device.digital "fan1" "Fan" "RELAY" 16 true false true true]
    ∧ applyRule
      [Device.dht "t1" "T" 4 false (.num 20) (.num 50),
       Device.digital "fan1" "Fan" "RELAY" 16 true false false false]
      ⟨"t1", "temp", ">", 25, "fan1", 1⟩
      = [Device.dht "t1" "T" 4 false (.num 20) (.num 50),
         Device.digital "fan1" "Fan" "RELAY" 16 true false false false]
    ∧ applyRule
      [Device.dht "t1" "T" 4 false .nan .nan,
       Device.digital "fan1" "Fan" "RELAY" 16 true false false false]
      ⟨"t1", "temp", ">", 25, "fan1", 1⟩
      = [Device.dht "t1" "T" 4 false .nan .nan,
         Device.digital "fan1" "Fan" "RELAY" 16 true false false false] := by
  refine ⟨?_, ?_, ?_⟩
  · exact Eq.trans
      ((((rule_trigger_semantics _ _ 0 1 30 (by decide) (by decide)
        (Or.inl rfl)).2.1 (by decide) (by decide)).1 (by decide)).2 (by decide))
      (by decide)
  · exact Eq.trans
      (((rule_trigger_semantics _ _ 0 1 20 (by decide) (by decide)
        (Or.inl rfl)).2.1 (by decide) (by decide)).2 (by decide))
      (by decide)
  · exact Eq.trans
      ((rule_trigger_semantics _ _ 0 1 0 (by decide) (by decide)
        (Or.inl rfl)).2.2.2 (.jstr "Sensor Error") (by decide) (by decide))
      (by decide)

/-- C4 counterexample: the src/main.cpp `checkRules` has no minimum
cadence — with a firing rule (analog value 10 above threshold 5), a
`loop()` pass at time 0 evaluates it, and after an external control
write resets the target, the pass at time 100 (only 100 ms later)
evaluates it again, changing the target: a tick invoked earlier than
500 ms after the previous evaluation does perform rule evaluation. -/
theorem main_loop_no_min_interval_counterexample :
    loopTickMain
        [⟨"a1", "val", ">", 5, "sv", 90⟩]
        100
        (mainControlWrite
          (loopTickMain [⟨"a1", "val", ">", 5, "sv", 90⟩] 0
            [Device.analog "a1" "A" "LDR" 32 10, Device.servo "sv" "S" 13 0])
          "sv" "set" (.num 0))
      ≠ mainControlWrite
          (loopTickMain [⟨"a1", "val", ">", 5, "sv", 90⟩] 0
            [Device.analog "a1" "A" "LDR" 32 10, Device.servo "sv" "S" 13 0])
          "sv" "set" (.num 0) := by
  decide

/-- C4 amended: the part_002 `checkRules` does enforce the cadence — a
call within 500 ms of the last evaluation (in 32-bit `millis`
arithmetic) leaves the engine state untouched, and after an evaluation
at `t1` every call before `t1 + 500` is inert, so two consecutive
evaluation passes are at least 500 ms apart; the src/main.cpp and
part_001 variants impose no such interval (see the counterexample). -/
theorem rule_engine_min_interval (rules : List Rule) (s : EngineState)
    (t1 t2 : Nat)
    (h1 : ¬ sub32 t1 s.lastCheck < 500)
    (h12 : t1 ≤ t2) (h2 : t2 < t1 + 500) :
    (∀ (now : Nat) (s' : EngineState), sub32 now s'.lastCheck < 500 →
        checkRulesP2 rules now s' = s')
    ∧ (checkRulesP2 rules t1 s).lastCheck = t1
    ∧ checkRulesP2 rules t2 (checkRulesP2 rules t1 s)
        = checkRulesP2 rules t1 s := by
  have hinert : ∀ (now : Nat) (s' : EngineState),
      sub32 now s'.lastCheck < 500 → checkRulesP2 rules now s' = s' := by
    intro now s' hlt
    simp [checkRulesP2, hlt]
  have heval : checkRulesP2 rules t1 s
      = { lastCheck := t1, devices := rulePass rules s.devices } := by
    simp [checkRulesP2, h1]
  refine ⟨hinert, by rw [heval], ?_⟩
  apply hinert
  rw [heval]
  show sub32 t2 t1 < 500
  have : sub32 t2 t1 = t2 - t1 := by
    unfold sub32
    omega
  omega

section ReplaceAllAtomicity

/-!
Interleaving model for the `replaceAll` atomicity claim.  The two
contending tasks are the `/api/config` request handler (the writer:
`xSemaphoreTake; for(d : devices) delete d; devices.clear();
for(obj : arr) push_back(create(...)); xSemaphoreGive`) and a
registry observer (the reader: `xSemaphoreTake; for(d : devices)
visit d; xSemaphoreGive` — the `/api/status` snapshot walk, an id
lookup, or a control dispatch; the parameter `g` is what the observer
does to each device it dereferences, `id` for a pure snapshot).  Each
loop iteration is one atomic step; the FreeRTOS mutex blocks an
acquire while the other task holds it, which is the only scheduling
assumption.  A slot whose object has been deleted but whose pointer is
still in the vector is `Cell.freed`; dereferencing it sets the `fault`
flag. -/

variable {α : Type}

/-- The two tasks contending for the registry mutex. -/
inductive Agent
| writer
| reader
deriving DecidableEq, Repr

/-- One slot of the global `std::vector<Device*>`: a live object, or a
dangling pointer whose object `delete` has already destroyed. -/
inductive Cell (α : Type)
| live (d : α)
| freed
deriving DecidableEq, Repr

/-- Writer program counter through the `/api/config` replace sequence:
idle, deleting slot `i` of the old vector, installing the remaining
new devices, done. -/
inductive WPc (α : Type)
| idle
| freeing (i : Nat)
| installing (rem : List α)
| wdone
deriving DecidableEq, Repr

/-- Reader program counter through the observer walk: idle, about to
visit slot `i`, done. -/
inductive RPc
| idle
| reading (i : Nat)
| rdone
deriving DecidableEq, Repr

/-- Global state: mutex owner, the shared device vector, both task
counters, the reader's observations in order, and the
dangling-dereference flag. -/
structure Sys (α : Type) where
  lock : Option Agent
  store : List (Cell α)
  wpc : WPc α
  rpc : RPc
  acc : List α
  fault : Bool
deriving DecidableEq, Repr

/-- One scheduler-chosen atomic step of either task.  Lock acquisition
requires the mutex free; every other step only advances the task's own
program counter, exactly as the code's critical sections do. -/
inductive Step (newDevs : List α) (g : α → α) : Sys α → Sys α → Prop
| wAcquire (s : Sys α) : s.lock = none → s.wpc = .idle →
    Step newDevs g s { s with lock := some .writer, wpc := .freeing 0 }
| wFree (s : Sys α) (i : Nat) : s.wpc = .freeing i → i < s.store.length →
    Step newDevs g s
      { s with
          store := s.store.set i .freed,
          wpc := .freeing (i + 1) }
| wClear (s : Sys α) (i : Nat) : s.wpc = .freeing i →
    ¬ i < s.store.length →
    Step newDevs g s { s with store := [], wpc := .installing newDevs }
| wInstall (s : Sys α) (d : α) (rem : List α) :
    s.wpc = .installing (d :: rem) →
    Step newDevs g s
      { s with
          store := s.store ++ [.live d],
          wpc := .installing rem }
| wRelease (s : Sys α) : s.wpc = .installing [] →
    Step newDevs g s { s with lock := none, wpc := .wdone }
| rAcquire (s : Sys α) : s.lock = none → s.rpc = .idle →
    Step newDevs g s { s with lock := some .reader, rpc := .reading 0 }
| rVisitLive (s : Sys α) (i : Nat) (d : α) : s.rpc = .reading i →
    s.store.getD i .freed = .live d →
    Step newDevs g s
      { s with
          store := s.store.set i (.live (g d)),
          acc := s.acc ++ [d],
          rpc := .reading (i + 1) }
| rVisitFreed (s : Sys α) (i : Nat) : s.rpc = .reading i →
    i < s.store.length → s.store.getD i .freed = .freed →
    Step newDevs g s
      { s with
          fault := true,
          rpc := .reading (i + 1) }
| rRelease (s : Sys α) (i : Nat) : s.rpc = .reading i →
    ¬ i < s.store.length →
    Step newDevs g s { s with lock := none, rpc := .rdone }

/-- Startup state: the old device set installed, mutex free, both
tasks idle. -/
def initSys (oldDevs : List α) : Sys α :=
  { lock := none, store := oldDevs.map .live, wpc := .idle, rpc := .idle,
    acc := [], fault := false }

/-- States reachable from startup by any interleaving. -/
inductive Reach (oldDevs newDevs : List α) (g : α → α) : Sys α → Prop
| init : Reach oldDevs newDevs g (initSys oldDevs)
| step (s s' : Sys α) : Reach oldDevs newDevs g s → Step newDevs g s s' →
    Reach oldDevs newDevs g s'

/-- The inductive invariant: the mutex owner determines which task is
mid-walk, the store is fully old (or fully new) outside the writer's
critical section, and a mid-walk reader has observed exactly a prefix
of one complete device set, every slot live. -/
def SysInv (oldDevs newDevs : List α) (g : α → α) (s : Sys α) : Prop :=
  s.fault = false
  ∧ (s.lock = some .writer ↔ (s.wpc ≠ .idle ∧ s.wpc ≠ .wdone))
  ∧ (s.lock = some .reader ↔ ∃ i, s.rpc = .reading i)
  ∧ (∀ i, s.wpc = .freeing i → i ≤ s.store.length)
  ∧ (∀ rem, s.wpc = .installing rem →
      ∃ pre, newDevs = pre ++ rem ∧ s.store = pre.map .live)
  ∧ (s.wpc = .idle → s.rpc = .idle → s.store = oldDevs.map .live)
  ∧ (s.wpc = .wdone → s.rpc = .idle → s.store = newDevs.map .live)
  ∧ (s.rpc = .idle → s.acc = [])
  ∧ (∀ i, s.rpc = .reading i →
      ∃ pre rest, (pre ++ rest = oldDevs ∨ pre ++ rest = newDevs)
        ∧ s.store = pre.map (fun d => Cell.live (g d)) ++ rest.map .live
        ∧ s.acc = pre ∧ i = pre.length)
  ∧ (s.rpc = .rdone → s.acc = oldDevs ∨ s.acc = newDevs)

lemma getD_length_append {β : Type} (l1 : List β) (c : β) (l2 : List β)
    (dflt : β) : (l1 ++ c :: l2).getD l1.length dflt = c := by
  induction l1 with
  | nil => rfl
  | cons a t ih => simpa [List.getD_cons_succ] using ih

lemma set_length_append {β : Type} (l1 : List β) (c c' : β) (l2 : List β) :
    (l1 ++ c :: l2).set l1.length c' = l1 ++ c' :: l2 := by
  induction l1 with
  | nil => rfl
  | cons a t ih =>
      show a :: (t ++ c :: l2).set t.length c' = a :: (t ++ c' :: l2)
      rw [ih]

lemma sysInv_init (oldDevs newDevs : List α) (g : α → α) :
    SysInv oldDevs newDevs g (initSys oldDevs) := by
  refine ⟨rfl, by simp [initSys], by simp [initSys], ?_, ?_, fun _ _ => rfl,
    ?_, fun _ => rfl, ?_, ?_⟩
  · intro i hi; simp [initSys] at hi
  · intro rem hrem; simp [initSys] at hrem
  · intro hd; simp [initSys] at hd
  · intro i hi; simp [initSys] at hi
  · intro hd; simp [initSys] at hd

lemma sysInv_step (oldDevs newDevs : List α) (g : α → α) (s s' : Sys α)
    (hinv : SysInv oldDevs newDevs g s) (hstep : Step newDevs g s s') :
    SysInv oldDevs newDevs g s' := by
  obtain ⟨h1, h2, h3, h4, h5, h6, h7, h8, h9, h10⟩ := hinv
  cases hstep with
  | wAcquire hl hw =>
      have hex : ¬ ∃ j, s.rpc = .reading j := by
        intro hx
        have hc := h3.mpr hx
        rw [hl] at hc
        simp at hc
      refine ⟨h1, by simp, ?_, ?_, ?_, ?_, ?_, h8, ?_, h10⟩
      · constructor
        · intro hc; simp at hc
        · intro hx; exact absurd hx hex
      · intro j hj
        injection hj with hj'
        omega
      · intro rem hrem; simp at hrem
      · intro hc; simp at hc
      · intro hc; simp at hc
      · intro j hj; exact absurd ⟨j, hj⟩ hex
  | wFree i hw hlen =>
      have hlw : s.lock = some .writer :=
        h2.mpr (by rw [hw]; exact ⟨by simp, by simp⟩)
      have hex : ¬ ∃ j, s.rpc = .reading j := by
        intro hx
        have hc := h3.mpr hx
        rw [hlw] at hc
        simp at hc
      refine ⟨h1, by simp [hlw], ?_, ?_, ?_, ?_, ?_, h8, ?_, h10⟩
      · rw [hlw]
        constructor
        · intro hc; simp at hc
        · intro hx; exact absurd hx hex
      · intro j hj
        injection hj with hj'
        simp only [List.length_set]
        omega
      · intro rem hrem; simp at hrem
      · intro hc; simp at hc
      · intro hc; simp at hc
      · intro j hj; exact absurd ⟨j, hj⟩ hex
  | wClear i hw hlen =>
      have hlw : s.lock = some .writer :=
        h2.mpr (by rw [hw]; exact ⟨by simp, by simp⟩)
      have hex : ¬ ∃ j, s.rpc = .reading j := by
        intro hx
        have hc := h3.mpr hx
        rw [hlw] at hc
        simp at hc
      refine ⟨h1, by simp [hlw], ?_, ?_, ?_, ?_, ?_, h8, ?_, h10⟩
      · rw [hlw]
        constructor
        · intro hc; simp at hc
        · intro hx; exact absurd hx hex
      · intro j hj; simp at hj
      · intro rem hrem
        injection hrem with h
        exact ⟨[], by simp [h], rfl⟩
      · intro hc; simp at hc
      · intro hc; simp at hc
      · intro j hj; exact absurd ⟨j, hj⟩ hex
  | wInstall d rem hw =>
      have hlw : s.lock = some .writer :=
        h2.mpr (by rw [hw]; exact ⟨by simp, by simp⟩)
      have hex : ¬ ∃ j, s.rpc = .reading j := by
        intro hx
        have hc := h3.mpr hx
        rw [hlw] at hc
        simp at hc
      obtain ⟨pre, hnew, hstore⟩ := h5 (d :: rem) hw
      refine ⟨h1, by simp [hlw], ?_, ?_, ?_, ?_, ?_, h8, ?_, h10⟩
      · rw [hlw]
        constructor
        · intro hc; simp at hc
        · intro hx; exact absurd hx hex
      · intro j hj; simp at hj
      · intro rem' hrem'
        injection hrem' with h
        subst h
        refine ⟨pre ++ [d], by rw [hnew]; simp, ?_⟩
        rw [hstore]
        simp
      · intro hc; simp at hc
      · intro hc; simp at hc
      · intro j hj; exact absurd ⟨j, hj⟩ hex
  | wRelease hw =>
      have hex : ¬ ∃ j, s.rpc = .reading j := by
        intro hx
        have hc := h3.mpr hx
        rw [h2.mpr (by rw [hw]; exact ⟨by simp, by simp⟩)] at hc
        simp at hc
      obtain ⟨pre, hnew, hstore⟩ := h5 [] hw
      have hstore' : s.store = newDevs.map .live := by
        rw [hstore, hnew]
        simp
      refine ⟨h1, by simp, ?_, ?_, ?_, ?_, ?_, h8, ?_, h10⟩
      · constructor
        · intro hc; simp at hc
        · intro hx; exact absurd hx hex
      · intro j hj; simp at hj
      · intro rem hrem; simp at hrem
      · intro hc; simp at hc
      · intro _ _; exact hstore'
      · intro j hj; exact absurd ⟨j, hj⟩ hex
  | rAcquire hl hr =>
      have hnw : s.wpc = .idle ∨ s.wpc = .wdone := by
        by_cases hi : s.wpc = .idle
        · exact Or.inl hi
        · by_cases hd : s.wpc = .wdone
          · exact Or.inr hd
          · have hc := h2.mpr ⟨hi, hd⟩
            rw [hl] at hc
            simp at hc
      have hacc := h8 hr
      have hstore : s.store = oldDevs.map .live ∨ s.store = newDevs.map .live := by
        rcases hnw with h | h
        · exact Or.inl (h6 h hr)
        · exact Or.inr (h7 h hr)
      refine ⟨h1, ?_, ?_, ?_, h5, ?_, ?_, ?_, ?_, ?_⟩
      · constructor
        · intro hc; simp at hc
        · rintro ⟨hni, hnd⟩
          rcases hnw with h | h
          · exact absurd h hni
          · exact absurd h hnd
      · exact ⟨fun _ => ⟨0, rfl⟩, fun _ => rfl⟩
      · intro j hj; exact h4 j hj
      · intro _ hri; simp at hri
      · intro _ hri; simp at hri
      · intro hri; simp at hri
      · intro j hj
        injection hj with hj'
        rcases hstore with h | h
        · exact ⟨[], oldDevs, Or.inl rfl, by simpa using h, hacc,
            by simp [← hj']⟩
        · exact ⟨[], newDevs, Or.inr rfl, by simpa using h, hacc,
            by simp [← hj']⟩
      · intro hc; simp at hc
  | rVisitLive i d hr hcell =>
      have hlr : s.lock = some .reader := h3.mpr ⟨i, hr⟩
      have hnw : s.wpc = .idle ∨ s.wpc = .wdone := by
        by_cases hi : s.wpc = .idle
        · exact Or.inl hi
        · by_cases hd : s.wpc = .wdone
          · exact Or.inr hd
          · have hc := h2.mpr ⟨hi, hd⟩
            rw [hlr] at hc
            simp at hc
      obtain ⟨pre, rest, hor, hstore, hacc, hi⟩ := h9 i hr
      obtain ⟨rest', rfl⟩ : ∃ rest', rest = d :: rest' := by
        cases rest with
        | nil =>
            have hout : s.store.getD i Cell.freed = Cell.freed := by
              rw [hstore]
              apply List.getD_eq_default
              simp [hi]
            rw [hout] at hcell
            simp at hcell
        | cons r rest' =>
            have hbound : s.store.getD i Cell.freed = Cell.live r := by
              rw [hstore, hi]
              have := getD_length_append
                (pre.map (fun x => Cell.live (g x))) (Cell.live r)
                (rest'.map Cell.live) Cell.freed
              simpa using this
            rw [hbound] at hcell
            injection hcell with h
            exact ⟨rest', by rw [h]⟩
      have hset : s.store.set i (Cell.live (g d))
          = (pre ++ [d]).map (fun x => Cell.live (g x))
            ++ rest'.map Cell.live := by
        rw [hstore, hi]
        have hb := set_length_append (pre.map (fun x => Cell.live (g x)))
          (Cell.live d) (Cell.live (g d)) (rest'.map Cell.live)
        simp only [List.length_map] at hb
        simp only [List.map_cons]
        rw [hb]
        simp
      refine ⟨h1, ?_, ?_, ?_, ?_, ?_, ?_, ?_, ?_, ?_⟩
      · rw [hlr]
        constructor
        · intro hc; simp at hc
        · rintro ⟨hni, hnd⟩
          rcases hnw with h | h
          · exact absurd h hni
          · exact absurd h hnd
      · exact ⟨fun _ => ⟨i + 1, rfl⟩, fun _ => hlr⟩
      · intro j hj
        have := h4 j hj
        simpa [List.length_set] using this
      · intro rem hrem
        rcases hnw with h | h <;> rw [h] at hrem <;> simp at hrem
      · intro _ hri; simp at hri
      · intro _ hri; simp at hri
      · intro hri; simp at hri
      · intro j hj
        injection hj with hj'
        refine ⟨pre ++ [d], rest', ?_, hset, by rw [hacc], by simp; omega⟩
        rcases hor with h | h
        · exact Or.inl (by simpa using h)
        · exact Or.inr (by simpa using h)
      · intro hc; simp at hc
  | rVisitFreed i hr hlen hcell =>
      obtain ⟨pre, rest, hor, hstore, hacc, hi⟩ := h9 i hr
      exfalso
      rw [hstore] at hcell hlen
      have hmem : (pre.map (fun x => Cell.live (g x))
          ++ rest.map Cell.live).getD i Cell.freed
          ∈ pre.map (fun x => Cell.live (g x)) ++ rest.map Cell.live := by
        rw [List.getD_eq_getElem _ _ hlen]
        exact List.getElem_mem hlen
      rw [hcell] at hmem
      rcases List.mem_append.mp hmem with hm | hm <;>
        · obtain ⟨x, _, hx⟩ := List.mem_map.mp hm
          simp at hx
  | rRelease i hr hnl =>
      have hlr : s.lock = some .reader := h3.mpr ⟨i, hr⟩
      have hnw : s.wpc = .idle ∨ s.wpc = .wdone := by
        by_cases hi : s.wpc = .idle
        · exact Or.inl hi
        · by_cases hd : s.wpc = .wdone
          · exact Or.inr hd
          · have hc := h2.mpr ⟨hi, hd⟩
            rw [hlr] at hc
            simp at hc
      obtain ⟨pre, rest, hor, hstore, hacc, hi⟩ := h9 i hr
      have hrest : rest = [] := by
        cases rest with
        | nil => rfl
        | cons r t =>
            exfalso
            apply hnl
            rw [hstore, hi]
            simp
      subst hrest
      have haccfin : s.acc = oldDevs ∨ s.acc = newDevs := by
        rcases hor with h | h
        · exact Or.inl (by rw [hacc]; simpa using h)
        · exact Or.inr (by rw [hacc]; simpa using h)
      refine ⟨h1, ?_, ?_, h4, h5, ?_, ?_, ?_, ?_, ?_⟩
      · constructor
        · intro hc; simp at hc
        · rintro ⟨hni, hnd⟩
          rcases hnw with h | h
          · exact absurd h hni
          · exact absurd h hnd
      · constructor
        · intro hc; simp at hc
        · rintro ⟨j, hj⟩; simp at hj
      · intro _ hri; simp at hri
      · intro _ hri; simp at hri
      · intro hri; simp at hri
      · intro j hj; simp at hj
      · intro _; exact haccfin

lemma sysInv_reach (oldDevs newDevs : List α) (g : α → α) (s : Sys α)
    (h : Reach oldDevs newDevs g s) : SysInv oldDevs newDevs g s := by
  induction h with
  | init => exact sysInv_init oldDevs newDevs g
  | step s1 s2 _ hst ih => exact sysInv_step oldDevs newDevs g s1 s2 ih hst

/-- C9: in every interleaving of a `replaceAll` (the `/api/config`
critical section: take the mutex, delete every old device, clear the
vector, install the new devices, give the mutex) with a concurrent
registry observer (snapshot walk, lookup or dispatch under the same
mutex), the observer never dereferences a destroyed device, and a
completed observer pass has visited exactly the complete old device
set or exactly the complete new one — never a mixture. -/
theorem replaceAll_atomic (oldDevs newDevs : List α) (g : α → α)
    (s : Sys α) (h : Reach oldDevs newDevs g s) :
    s.fault = false
    ∧ (s.rpc = .rdone → s.acc = oldDevs ∨ s.acc = newDevs) := by
  obtain ⟨h1, _, _, _, _, _, _, _, _, h10⟩ := sysInv_reach oldDevs newDevs g s h
  exact ⟨h1, h10⟩

/-- Witness for `replaceAll_atomic`: a full snapshot walk over the
one-device registry, with the writer idle, observes the complete old
set. -/
theorem replaceAll_atomic_witness :
    ({ lock := none,
       store := [Cell.live (Device.servo "s1" "S" 13 0)],
       wpc := WPc.idle,
       rpc := RPc.rdone,
       acc := [Device.servo "s1" "S" 13 0],
       fault := false } : Sys Device).fault = false
    ∧ (({ lock := none,
          store := [Cell.live (Device.servo "s1" "S" 13 0)],
          wpc := WPc.idle,
          rpc := RPc.rdone,
          acc := [Device.servo "s1" "S" 13 0],
          fault := false } : Sys Device).rpc = RPc.rdone →
        ({ lock := none,
           store := [Cell.live (Device.servo "s1" "S" 13 0)],
           wpc := WPc.idle,
           rpc := RPc.rdone,
           acc := [Device.servo "s1" "S" 13 0],
           fault := false } : Sys Device).acc
            = [Device.servo "s1" "S" 13 0]
          ∨ ({ lock := none,
               store := [Cell.live (Device.servo "s1" "S" 13 0)],
               wpc := WPc.idle,
               rpc := RPc.rdone,
               acc := [Device.servo "s1" "S" 13 0],
               fault := false } : Sys Device).acc
            = [Device.lcd "l1" "LCD" 39 "" "" ""]) := by
  have h0 : Reach [Device.servo "s1" "S" 13 0]
      [Device.lcd "l1" "LCD" 39 "" "" ""] id
      (initSys [Device.servo "s1" "S" 13 0]) := Reach.init
  have h1 := Reach.step _ _ h0
    (Step.rAcquire (initSys [Device.servo "s1" "S" 13 0]) rfl rfl)
  have h2 := Reach.step _ _ h1
    (Step.rVisitLive _ 0 (Device.servo "s1" "S" 13 0) rfl rfl)
  have h3 := Reach.step _ _ h2 (Step.rRelease _ 1 rfl (by decide))
  exact replaceAll_atomic _ _ _ _ h3

end ReplaceAllAtomicity

/-- Witness for `rule_engine_min_interval`: an evaluation at `t1 = 600`
(with `lastCheck = 0`) stamps 600, and the call at `t2 = 700` changes
nothing. -/
theorem rule_engine_min_interval_witness :
    (checkRulesP2 [] 600 ⟨0, []⟩).lastCheck = 600
    ∧ checkRulesP2 [] 700 (checkRulesP2 [] 600 ⟨0, []⟩)
        = checkRulesP2 [] 600 ⟨0, []⟩ :=
  ⟨(rule_engine_min_interval [] ⟨0, []⟩ 600 700 (by decide) (by decide)
      (by decide)).2.1,
   (rule_engine_min_interval [] ⟨0, []⟩ 600 700 (by decide) (by decide)
      (by decide)).2.2⟩

/-- C3 counterexample: with two registered devices sharing id `dup`,
the src/main.cpp control dispatch writes the LAST matching device in
insertion order, not the first as the claim states. -/
theorem duplicate_id_first_match_counterexample :
    mainControlWrite [.servo "dup" "S1" 5 0, .servo "dup" "S2" 18 0]
        "dup" "set" (.num 90)
      = [.servo "dup" "S1" 5 0, .servo "dup" "S2" 18 90]
    ∧ mainControlWrite [.servo "dup" "S1" 5 0, .servo "dup" "S2" 18 0]
        "dup" "set" (.num 90)
      ≠ [.servo "dup" "S1" 5 90, .servo "dup" "S2" 18 0] := by
  decide

/-- C3 amended: when an id occurs several times, the id scan of the
rule engine and of the src/main.cpp control handler resolves to the
LAST device with that id in insertion order (the part_002 control
handler instead acts on every matching device), and a control dispatch
or rule reference whose id matches no device is a no-op. -/
theorem id_resolution_semantics (devs : List Device) (id cmd text : String)
    (v : FVal) (i : Nat) :
    (resolveIdx devs id = some i →
       i < devs.length ∧ (devs.getD i dummyDevice).getId = id
       ∧ (∀ j, i < j → j < devs.length →
           (devs.getD j dummyDevice).getId ≠ id)
       ∧ mainControlWrite devs id cmd v
           = devs.set i ((devs.getD i dummyDevice).write cmd v)
       ∧ mainControlText devs id text
           = devs.set i ((devs.getD i dummyDevice).writeText text))
    ∧ (resolveIdx devs id = none ↔ ∀ d ∈ devs, d.getId ≠ id)
    ∧ (resolveIdx devs id = none →
        mainControlWrite devs id cmd v = devs
        ∧ mainControlText devs id text = devs)
    ∧ p2ControlWrite devs id cmd v
        = devs.map (fun d => if d.getId == id then d.write cmd v else d)
    ∧ (∀ r : Rule,
        resolveIdx devs r.srcId = none ∨ resolveIdx devs r.tgtId = none →
        applyRule devs r = devs) := by
  refine ⟨?_, resolveIdx_none_iff devs id, ?_, rfl, ?_⟩
  · intro h
    obtain ⟨hlt, hid, hlast⟩ := resolveIdx_last devs id i h
    exact ⟨hlt, hid, hlast,
      by simp [mainControlWrite, h], by simp [mainControlText, h]⟩
  · intro h
    exact ⟨by simp [mainControlWrite, h], by simp [mainControlText, h]⟩
  · intro r hr
    rcases hr with h | h
    · simp [applyRule, h]
    · cases hs : resolveIdx devs r.srcId <;> simp [applyRule, h, hs]

/-- Witness for `id_resolution_semantics`: the id scan over two devices
sharing id `dup` resolves to index 1, not 0. -/
theorem id_resolution_semantics_witness :
    resolveIdx [Device.servo "dup" "S1" 5 0, Device.servo "dup" "S2" 18 0]
        "dup" = some 1
    ∧ ([Device.servo "dup" "S1" 5 0,
        Device.servo "dup" "S2" 18 0].getD 1 dummyDevice).getId = "dup" :=
  ⟨by decide,
   ((id_resolution_semantics
       [Device.servo "dup" "S1" 5 0, Device.servo "dup" "S2" 18 0]
       "dup" "set" "t" (.num 90) 1).1 (by decide)).2.1⟩

/-- C2 counterexample: in the V2 DHT driver a NaN humidity with a valid
temperature emits both value keys (`hum` being NaN) and no `error` key,
contradicting the claim that NaN on either channel yields the single
`error` key. -/
theorem dht_v2_humidity_nan_counterexample :
    dhtReadV2 (.num 21) .nan
      = [("temp", .jnum (.num 21)), ("hum", .jnum .nan)]
    ∧ JObj.hasKey (dhtReadV2 (.num 21) .nan) "error" = false := by
  decide

/-- C2 amended: the V1 DHT driver emits the single `error` key exactly
when either channel reads NaN and both value keys otherwise; the V2
driver tests only the temperature channel.  In both variants the
`error` key and the value keys are mutually exclusive in one call's
output. -/
theorem dht_read_nan_semantics (t h : FVal) :
    (t = .nan ∨ h = .nan → dhtReadV1 t h = [("error", .jstr "Read Fail")])
    ∧ (t ≠ .nan → h ≠ .nan →
        dhtReadV1 t h = [("temp", .jnum t), ("hum", .jnum h)])
    ∧ (t = .nan → dhtReadV2 t h = [("error", .jstr "Sensor Error")])
    ∧ (t ≠ .nan → dhtReadV2 t h = [("temp", .jnum t), ("hum", .jnum h)])
    ∧ (JObj.hasKey (dhtReadV1 t h) "error" = true
         ↔ JObj.hasKey (dhtReadV1 t h) "temp" = false
           ∧ JObj.hasKey (dhtReadV1 t h) "hum" = false)
    ∧ (JObj.hasKey (dhtReadV2 t h) "error" = true
         ↔ JObj.hasKey (dhtReadV2 t h) "temp" = false
           ∧ JObj.hasKey (dhtReadV2 t h) "hum" = false)
    ∧ (∀ (id nm : String) (pin : Int) (sub : Bool),
        (Device.read (.dht id nm pin sub t h)).2 = dhtReadV2 t h) := by
  refine ⟨?_, ?_, ?_, ?_, ?_, ?_, fun _ _ _ _ => rfl⟩ <;>
    rcases t with _ | qt <;> rcases h with _ | qh <;>
      simp [dhtReadV1, dhtReadV2, JObj.hasKey]

/-- Witness for `dht_read_nan_semantics`: a NaN humidity with valid
temperature gives error-only output in V1 but both value keys in
V2. -/
theorem dht_read_nan_semantics_witness :
    dhtReadV1 (.num 21) .nan = [("error", .jstr "Read Fail")]
    ∧ dhtReadV2 (.num 21) .nan
        = [("temp", .jnum (.num 21)), ("hum", .jnum .nan)] :=
  ⟨(dht_read_nan_semantics (.num 21) .nan).1 (Or.inr rfl),
   (dht_read_nan_semantics (.num 21) .nan).2.2.2.1 (by decide)⟩
